import Mathlib

/-!
Shallow embedding of the pdf-parse-node extraction service and proofs about
its specification.

Sources embedded:
- `src/lib/textCleaner.js` (`cleanText` and helpers)
- `src/lib/fileDownloader.js` (Cloudinary variant: `downloadFile`,
  `detectMimeType`, `detectMimeTypeFromContent`, `detectMimeTypeFromExtension`)
- `src/lib/pdfProcessor.js` (`extractTextFromPDF`, `extractTextWithOCR`,
  `extractTextFromDOCX`, `extractTextFromTXT`)

Modelling conventions:
- Buffers are `List Nat` of byte values.
- Strings are Lean `String`s; JavaScript string operations are embedded as
  executable functions on `List Char` / `String`.
- `Math.random() > 0.5` draws are an explicit stream `Nat → Bool`, indexed in
  call order.
- External library calls (`pdf-parse`, `mammoth`, Tesseract `recognize`,
  axios requests) are modelled as outcome parameters (`Except`): within one
  modelled run, a repeated identical external call returns the same outcome.
- JavaScript `toUpperCase`/`toLowerCase` are modelled on the ASCII range
  (other characters pass through unchanged); `String.prototype.length` is
  modelled as code-point count. All inputs relevant to the claims are ASCII.
- Wall-clock fields (`processingTime`) and time-based URL signature query
  parameters are not modelled.
-/

/-! ## JavaScript string and character primitives -/

/-- The character class of JavaScript `\s` (also the set trimmed by
`String.prototype.trim`): ASCII whitespace, NBSP, Unicode space separators,
line/paragraph separators and the BOM. -/
def isJsWs (c : Char) : Bool :=
  c == ' ' || c == '\t' || c == '\n' || c == '\r' ||
  c.toNat == 11 || c.toNat == 12 || c.toNat == 0xA0 || c.toNat == 0x1680 ||
  (0x2000 ≤ c.toNat && c.toNat ≤ 0x200A) ||
  c.toNat == 0x2028 || c.toNat == 0x2029 || c.toNat == 0x202F ||
  c.toNat == 0x205F || c.toNat == 0x3000 || c.toNat == 0xFEFF

/-- ASCII lowercase letter (JS regex `[a-z]`). -/
def isAsciiLower (c : Char) : Bool := 97 ≤ c.toNat && c.toNat ≤ 122

/-- ASCII uppercase letter (JS regex `[A-Z]`). -/
def isAsciiUpper (c : Char) : Bool := 65 ≤ c.toNat && c.toNat ≤ 90

/-- ASCII digit (JS regex `[0-9]`). -/
def isAsciiDigit (c : Char) : Bool := 48 ≤ c.toNat && c.toNat ≤ 57

/-- JS `toUpperCase`, modelled on ASCII. -/
def jsToUpperChar (c : Char) : Char :=
  if isAsciiLower c then Char.ofNat (c.toNat - 32) else c

/-- JS `toLowerCase`, modelled on ASCII. -/
def jsToLowerChar (c : Char) : Char :=
  if isAsciiUpper c then Char.ofNat (c.toNat + 32) else c

def jsToUpper (s : String) : String := String.mk (s.data.map jsToUpperChar)

def jsToLower (s : String) : String := String.mk (s.data.map jsToLowerChar)

/-- Drop leading JS whitespace. -/
def dropLeadingWs (l : List Char) : List Char := l.dropWhile isJsWs

/-- Drop trailing JS whitespace. -/
def dropTrailingWs (l : List Char) : List Char :=
  (l.reverse.dropWhile isJsWs).reverse

/-- JS `String.prototype.trim`. -/
def trimChars (l : List Char) : List Char := dropTrailingWs (dropLeadingWs l)

def jsTrim (s : String) : String := String.mk (trimChars s.data)

/-- Core of JS `split(/\s+/)`: each maximal whitespace run is a separator.
The state is `some cur` while accumulating a token (`cur` reversed) and
`none` while inside a separator run (whose opening already emitted the
preceding token). A leading run yields a leading empty token and a trailing
run a trailing empty token; the empty string yields one empty token. -/
def splitWsCore : List Char → Option (List Char) → List (List Char)
  | [], some cur => [cur.reverse]
  | [], none => [[]]
  | c :: rest, some cur =>
    if isJsWs c then cur.reverse :: splitWsCore rest none
    else splitWsCore rest (some (c :: cur))
  | c :: rest, none =>
    if isJsWs c then splitWsCore rest none
    else splitWsCore rest (some [c])

/-- JS `s.split(/\s+/)`. -/
def jsSplitWs (s : String) : List String :=
  (splitWsCore s.data (some [])).map String.mk

/-! ## textCleaner.js -/

/-- Emit a completed whitespace run for `collapseWs`: a run of length ≥ 2 was
matched by `/\s{2,}/` and replaced by a single space, a run of length 1 is
left as the original character. `pending = some (w, multi)` means a run
started with character `w` and `multi` records whether it reached length 2. -/
def emitWsRun : Option (Char × Bool) → List Char
  | none => []
  | some (w, multi) => if multi then [' '] else [w]

/-- First cleaning step, `text.replace(/\s{2,}/g, ' ')`: every run of two or
more whitespace characters becomes one space; lone whitespace characters are
unchanged. -/
def collapseWsCore : List Char → Option (Char × Bool) → List Char
  | [], pending => emitWsRun pending
  | c :: rest, pending =>
    if isJsWs c then
      match pending with
      | none => collapseWsCore rest (some (c, false))
      | some (w, _) => collapseWsCore rest (some (w, true))
    else emitWsRun pending ++ c :: collapseWsCore rest none

def collapseWs (l : List Char) : List Char := collapseWsCore l none

/-- Emit a completed newline run for `collapseNl`: a run of three or more
newlines was matched by `/\n{3,}/` and replaced by exactly two. -/
def emitNlRun (n : Nat) : List Char :=
  if 3 ≤ n then ['\n', '\n'] else List.replicate n '\n'

/-- Second cleaning step, `replace(/\n{3,}/g, '\n\n')`: every run of three or
more newlines becomes exactly two. `n` counts pending consecutive newlines. -/
def collapseNlCore : List Char → Nat → List Char
  | [], n => emitNlRun n
  | c :: rest, n =>
    if c == '\n' then collapseNlCore rest (n + 1)
    else emitNlRun n ++ c :: collapseNlCore rest 0

def collapseNl (l : List Char) : List Char := collapseNlCore l 0

/-- Whether the head of the remaining input is an ASCII lowercase letter
(the lookahead `(?=[a-z])`). -/
def headIsLower : List Char → Bool
  | c :: _ => isAsciiLower c
  | [] => false

/-- `fixed.replace(/m(?=[a-z])/g, m => Math.random() > 0.5 ? 'rn' : m)`:
each `m` followed by a lowercase letter is replaced by `rn` iff the next
random draw exceeds 0.5. `r k` is the value of draw number `k`; the
lookahead consumes nothing, so scanning resumes at the following character. -/
def fixRn (r : Nat → Bool) : Nat → List Char → List Char
  | _, [] => []
  | k, c :: rest =>
    if c == 'm' && headIsLower rest then
      (if r k then ['r', 'n'] else ['m']) ++ fixRn r (k + 1) rest
    else c :: fixRn r k rest

/-- `replace(/([0-9])O([0-9])/g, '$10$2')`: an `O` between two digits becomes
`0`; matches are non-overlapping, scanning left to right. On a match the
whole replacement is emitted at once and `skip` marks the two following
characters as already consumed by that match, so scanning resumes after it. -/
def fixOZeroCore : List Char → Nat → List Char
  | [], _ => []
  | _ :: rest, skip + 1 => fixOZeroCore rest skip
  | c :: rest, 0 =>
    match rest with
    | o :: d2 :: _ =>
      if isAsciiDigit c && o == 'O' && isAsciiDigit d2 then
        c :: '0' :: d2 :: fixOZeroCore rest 2
      else c :: fixOZeroCore rest 0
    | _ => c :: fixOZeroCore rest 0

def fixOZero (l : List Char) : List Char := fixOZeroCore l 0

/-- `replace(/([a-z])1([a-z])/g, '$1l$2')`: a `1` between two lowercase
letters becomes `l`; matches are non-overlapping, scanning left to right. -/
def fixOneLCore : List Char → Nat → List Char
  | [], _ => []
  | _ :: rest, skip + 1 => fixOneLCore rest skip
  | c :: rest, 0 =>
    match rest with
    | o :: c2 :: _ =>
      if isAsciiLower c && o == '1' && isAsciiLower c2 then
        c :: 'l' :: c2 :: fixOneLCore rest 2
      else c :: fixOneLCore rest 0
    | _ => c :: fixOneLCore rest 0

def fixOneL (l : List Char) : List Char := fixOneLCore l 0

/-- `replace(/\.([A-Z])/g, '. $1')`: insert a space between a period and an
immediately following capital letter. -/
def fixPeriodCapCore : List Char → Nat → List Char
  | [], _ => []
  | _ :: rest, skip + 1 => fixPeriodCapCore rest skip
  | c :: rest, 0 =>
    match rest with
    | c2 :: _ =>
      if c == '.' && isAsciiUpper c2 then
        c :: ' ' :: c2 :: fixPeriodCapCore rest 1
      else c :: fixPeriodCapCore rest 0
    | _ => [c]

def fixPeriodCap (l : List Char) : List Char := fixPeriodCapCore l 0

/-- `fixCommonOCRIssues` from textCleaner.js: the four replacements in
source order. -/
def fixCommonOCRIssues (r : Nat → Bool) (l : List Char) : List Char :=
  fixPeriodCap (fixOneL (fixOZero (fixRn r 0 l)))

/-- The line test `/[.!?]$/.test(line)`. -/
def endsWithSentenceMarker (s : String) : Bool :=
  match s.data.getLast? with
  | some c => c == '.' || c == '!' || c == '?'
  | none => false

/-- One step of the `preserveParagraphs` loop body: state is
`(finished paragraphs, current paragraph)`. -/
def paragraphStep (st : List String × String) (line : String) :
    List String × String :=
  let (paragraphs, currentParagraph) := st
  let l := jsTrim line
  if l = "" then
    if currentParagraph ≠ "" then (paragraphs ++ [currentParagraph], "")
    else (paragraphs, currentParagraph)
  else if jsToUpper l = l ∧ l.length < 50 then
    ((if currentParagraph ≠ "" then paragraphs ++ [currentParagraph]
      else paragraphs) ++ [l], "")
  else if endsWithSentenceMarker l then
    (paragraphs ++
       [(if currentParagraph ≠ "" then currentParagraph ++ " " else "") ++ l],
     "")
  else
    (paragraphs,
     (if currentParagraph ≠ "" then currentParagraph ++ " " else "") ++ l)

/-- JS `text.split('\n')`: the empty string yields `[""]`; a trailing
newline yields a trailing empty line. -/
def splitLines : List Char → List Char → List String
  | [], cur => [String.mk cur.reverse]
  | c :: rest, cur =>
    if c == '\n' then String.mk cur.reverse :: splitLines rest []
    else splitLines rest (c :: cur)

/-- `preserveParagraphs` from textCleaner.js: split on `'\n'`, group lines
into paragraphs (blank line ends a paragraph; a short all-uppercase line is
its own paragraph; a line ending in `.`, `!` or `?` ends a paragraph), and
rejoin with blank lines. -/
def preserveParagraphs (text : String) : String :=
  let lines := splitLines text.data []
  let st := lines.foldl paragraphStep ([], "")
  let paragraphs := if st.2 ≠ "" then st.1 ++ [st.2] else st.1
  String.intercalate "\n\n" paragraphs

/-- `normalizeEncoding` from textCleaner.js, as a per-character mapping (all
source patterns are single characters): smart quotes to straight quotes,
en/em dash to hyphen, bullet to `*`, ellipsis to `...`, NBSP to space. -/
def normalizeEncodingChar (c : Char) : List Char :=
  if c.toNat == 0x2018 || c.toNat == 0x2019 then [Char.ofNat 39]
  else if c.toNat == 0x201C || c.toNat == 0x201D then ['"']
  else if c.toNat == 0x2013 || c.toNat == 0x2014 then ['-']
  else if c.toNat == 0x2022 then ['*']
  else if c.toNat == 0x2026 then ['.', '.', '.']
  else if c.toNat == 0x00A0 then [' ']
  else [c]

def normalizeEncoding (l : List Char) : List Char :=
  (l.map normalizeEncodingChar).flatten

/-- `cleanText` from textCleaner.js, on a (non-null) string argument.
`r` is the stream of `Math.random() > 0.5` draws. -/
def cleanText (r : Nat → Bool) (text : String) : String :=
  if text = "" then ""
  else
    let c1 := collapseWs text.data
    let c2 := collapseNl c1
    let c3 := fixCommonOCRIssues r c2
    let s4 := preserveParagraphs (String.mk c3)
    let c5 := normalizeEncoding s4.data
    String.mk (trimChars c5)

/-- `cleanText` on a possibly-absent argument: `null`/`undefined` (`none`)
and the empty string are falsy in JS, so `if (!text) return ''` applies. -/
def cleanTextJs (r : Nat → Bool) (text : Option String) : String :=
  match text with
  | none => ""
  | some s => cleanText r s

example : cleanText (fun _ => true) "man" = "rnan" := by decide
example : cleanText (fun _ => false) "man" = "man" := by decide
example : cleanText (fun _ => false) "hi" = "hi" := by decide
example : jsSplitWs "" = [""] := by decide
example : jsSplitWs "a b" = ["a", "b"] := by decide
example : jsSplitWs " " = ["", ""] := by decide
example : cleanText (fun _ => false) "a.B c" = "a. B c" := by decide

/-! ## fileDownloader.js: MIME detection -/

/-- Node `buffer.toString('ascii')`: each byte is masked to 7 bits. -/
def bytesToAscii (l : List Nat) : String :=
  String.mk (l.map (fun b => Char.ofNat (b % 128)))

/-- Lowercase hex digit. -/
def hexDigitChar (n : Nat) : Char :=
  if n < 10 then Char.ofNat (48 + n) else Char.ofNat (87 + n)

/-- Node `buffer.toString('hex')`, lowercase. -/
def bytesToHex (l : List Nat) : List Char :=
  (l.map (fun b => [hexDigitChar (b / 16 % 16), hexDigitChar (b % 16)])).flatten

/-- JS `String.prototype.includes`. -/
def hasSubstr (pat : List Char) : List Char → Bool
  | [] => pat.isEmpty
  | c :: rest => pat.isPrefixOf (c :: rest) || hasSubstr pat rest

/-- `detectMimeTypeFromContent` from fileDownloader.js: byte-signature
classification of a buffer. The DOCX refinement inspects the hex dump of the
first (up to) 1000 bytes for the markers from the source (`'776f72642f'`,
the hex of `word/`; the `'_rels'` and `'docProps'` literals are compared
against the hex string as in the source, where they can never occur). -/
def detectMimeTypeFromContent (buffer : List Nat) : Option String :=
  if buffer = [] then none
  else if 4 ≤ buffer.length ∧ bytesToAscii (buffer.take 4) = "%PDF" then
    some "application/pdf"
  else if 4 ≤ buffer.length ∧ buffer.take 4 = [0x50, 0x4B, 0x03, 0x04] then
    let bufferStr := bytesToHex (buffer.take 1000)
    if hasSubstr "776f72642f".data bufferStr ∨ hasSubstr "_rels".data bufferStr ∨
        hasSubstr "docProps".data bufferStr then
      some "application/vnd.openxmlformats-officedocument.wordprocessingml.document"
    else some "application/zip"
  else if 8 ≤ buffer.length ∧
      buffer.take 8 = [0xD0, 0xCF, 0x11, 0xE0, 0xA1, 0xB1, 0x1A, 0xE1] then
    some "application/msword"
  else if 8 ≤ buffer.length ∧
      buffer.take 8 = [0x89, 0x50, 0x4E, 0x47, 0x0D, 0x0A, 0x1A, 0x0A] then
    some "image/png"
  else if 3 ≤ buffer.length ∧ buffer.take 3 = [0xFF, 0xD8, 0xFF] then
    some "image/jpeg"
  else if 6 ≤ buffer.length ∧
      (bytesToAscii (buffer.take 6) = "GIF87a" ∨
       bytesToAscii (buffer.take 6) = "GIF89a") then
    some "image/gif"
  else none

/-- The extension-to-MIME table from `detectMimeTypeFromExtension`. -/
def mimeTypeForExt : String → Option String
  | "pdf" => some "application/pdf"
  | "docx" =>
    some "application/vnd.openxmlformats-officedocument.wordprocessingml.document"
  | "doc" => some "application/msword"
  | "txt" => some "text/plain"
  | "png" => some "image/png"
  | "jpg" => some "image/jpeg"
  | "jpeg" => some "image/jpeg"
  | "gif" => some "image/gif"
  | "webp" => some "image/webp"
  | "mp4" => some "video/mp4"
  | "mov" => some "video/quicktime"
  | "avi" => some "video/avi"
  | _ => none

/-- JS `filename.split('.')`. -/
def splitOnDot : List Char → List Char → List String
  | [], cur => [String.mk cur.reverse]
  | c :: rest, cur =>
    if c == '.' then String.mk cur.reverse :: splitOnDot rest []
    else splitOnDot rest (c :: cur)

/-- `detectMimeTypeFromExtension` from fileDownloader.js:
`filename.toLowerCase().split('.').pop()` looked up in the table. -/
def detectMimeTypeFromExtension (filename : String) : Option String :=
  if filename = "" then none
  else mimeTypeForExt ((splitOnDot (jsToLower filename).data []).getLastD "")

/-- `detectMimeType` from fileDownloader.js (Cloudinary variant): content
sniffing first, then extension, then the transport header (ignored when
empty or `application/octet-stream`), then the default. `none` models a JS
`null` argument. -/
def detectMimeType (buffer : List Nat) (filename : Option String)
    (headerContentType : Option String) : String :=
  let contentMimeType := detectMimeTypeFromContent buffer
  let extensionMimeType :=
    match filename with
    | some f => if f ≠ "" then detectMimeTypeFromExtension f else none
    | none => none
  let headerMimeType :=
    match headerContentType with
    | some h =>
      if h ≠ "" ∧ h ≠ "application/octet-stream" then some h else none
    | none => none
  (contentMimeType <|> extensionMimeType <|> headerMimeType).getD
    "application/octet-stream"

/-- Spec-side resolution for the refinement claim C6, following the spec's
words only: priority is (a) byte-signature sniffing, (b) file-extension
inference from the filename, (c) the transport-reported content type, (d)
the `application/octet-stream` default; a later source is consulted only
when every earlier one yields nothing (absent or empty). -/
def specEffectiveMime (buffer : List Nat) (filename : Option String)
    (transport : Option String) : String :=
  match detectMimeTypeFromContent buffer with
  | some m => m
  | none =>
    match filename.bind detectMimeTypeFromExtension with
    | some m => m
    | none =>
      match transport with
      | some t => if t ≠ "" then t else "application/octet-stream"
      | none => "application/octet-stream"

/-! ## fileDownloader.js: downloadFile (Cloudinary variant) -/

/-- An HTTP response as observed by the code: status, body bytes, and the
`content-type` header (absent headers are `none`). -/
structure HttpResp where
  status : Nat
  bytes : List Nat
  contentType : Option String
deriving DecidableEq

/-- The object returned by a successful `downloadFile`. -/
structure DlResult where
  buffer : List Nat
  mimeType : String
  size : Nat
  url : String
deriving DecidableEq

/-- The structured error thrown when every download method failed. -/
structure DownloadError where
  code : String
  message : String
  status : Nat
  originalUrl : String
deriving DecidableEq

/-- Inputs of one `downloadFile` run. `filename`, `publicId` and
`urlCloudName` are the regex extractions from the URL
(`extractFilenameFromUrl`, `extractPublicId`, `extractCloudName`), taken as
inputs of the model; `envCloudName`, `apiKey`, `apiSecret` are the
Cloudinary environment variables. `m1`–`m4` are the outcomes of the four
axios attempts: `m1` resolves (`.ok`) for any status below 500 (its
`validateStatus`), `m2`–`m4` use the axios default and resolve only for
success statuses; `.error` is a thrown request error. -/
structure DownloadEnv where
  url : String
  filename : Option String
  publicId : Option String
  urlCloudName : Option String
  envCloudName : Option String
  apiKey : Option String
  apiSecret : Option String
  m1 : Except String HttpResp
  m2 : Except String HttpResp
  m3 : Except String HttpResp
  m4 : Except String HttpResp

/-- JS truthiness of a nullable string. -/
def truthy : Option String → Bool
  | some s => s != ""
  | none => false

/-- JS `a || b` on nullable strings. -/
def jsOrStr (a b : Option String) : Option String :=
  match a with
  | some s => if s = "" then b else some s
  | none => b

/-- `extractCloudName(url) || CLOUDINARY_CLOUD_NAME` (as computed in
methods 2–4). -/
def DownloadEnv.cloudName (e : DownloadEnv) : Option String :=
  jsOrStr e.urlCloudName e.envCloudName

/-- `filename && filename.toLowerCase().endsWith('.pdf')` from method 2. -/
def DownloadEnv.isPdfName (e : DownloadEnv) : Bool :=
  match e.filename with
  | some f => f != "" && ".pdf".data.isSuffixOf (jsToLower f).data
  | none => false

/-- Build the `{buffer, mimeType, size, url}` result from a response. -/
def mkDlResult (e : DownloadEnv) (h : HttpResp) (url : String) : DlResult :=
  { buffer := h.bytes,
    mimeType := detectMimeType h.bytes e.filename h.contentType,
    size := h.bytes.length,
    url := url }

/-- Method 2: reconstructed delivery URL, `raw` for `.pdf` filenames and
`image` otherwise; skipped unless both `publicId` and a cloud name are
truthy; a thrown request is caught and falls through. -/
def tryMethod2 (e : DownloadEnv) : Option DlResult :=
  if truthy e.publicId && truthy e.cloudName then
    match e.m2 with
    | .ok h =>
      let url :=
        if e.isPdfName then
          "https://res.cloudinary.com/" ++ e.cloudName.getD "" ++
            "/raw/upload/" ++ e.publicId.getD ""
        else
          "https://res.cloudinary.com/" ++ e.cloudName.getD "" ++
            "/image/upload/" ++ e.publicId.getD ""
      some (mkDlResult e h url)
    | .error _ => none
  else none

/-- Method 3: attachment-flag URL; same guard as method 2. -/
def tryMethod3 (e : DownloadEnv) : Option DlResult :=
  if truthy e.publicId && truthy e.cloudName then
    match e.m3 with
    | .ok h =>
      some (mkDlResult e h
        ("https://res.cloudinary.com/" ++ e.cloudName.getD "" ++
          "/raw/upload/fl_attachment/" ++ e.publicId.getD ""))
    | .error _ => none
  else none

/-- Method 4: authenticated URL, requiring credentials as well; the
timestamped signature query string is not modelled. -/
def tryMethod4 (e : DownloadEnv) : Option DlResult :=
  if truthy e.publicId && truthy e.cloudName && truthy e.apiKey &&
      truthy e.apiSecret then
    match e.m4 with
    | .ok h =>
      some (mkDlResult e h
        ("https://res.cloudinary.com/" ++ e.cloudName.getD "" ++
          "/image/upload/fl_attachment,f_auto,q_auto/" ++ e.publicId.getD ""))
    | .error _ => none
  else none

/-- Methods 2–4 in order, then the terminal `DOWNLOAD_FAILED` error built by
the outer catch from `new Error("All download methods failed")`. -/
def method234 (e : DownloadEnv) : Except DownloadError DlResult :=
  match tryMethod2 e with
  | some r => .ok r
  | none =>
    match tryMethod3 e with
    | some r => .ok r
    | none =>
      match tryMethod4 e with
      | some r => .ok r
      | none =>
        .error { code := "DOWNLOAD_FAILED",
                 message := "Failed to download file: All download methods failed",
                 status := 500,
                 originalUrl := e.url }

/-- `downloadFile` from fileDownloader.js (Cloudinary variant). Method 1
returns only on status 200; any other resolved status (4xx accepted by its
`validateStatus`) or a thrown request falls through to methods 2–4. -/
def downloadFile (e : DownloadEnv) : Except DownloadError DlResult :=
  match e.m1 with
  | .ok h => if h.status == 200 then .ok (mkDlResult e h e.url) else method234 e
  | .error _ => method234 e

/-! ## pdfProcessor.js -/

/-- UTF-8 continuation byte (`10xxxxxx`). -/
def isUtf8Cont (b : Nat) : Bool := 0x80 ≤ b && b ≤ 0xBF

/-- Admissible second byte of a three-byte sequence (overlongs and
surrogates excluded). -/
def utf8Lead3Ok (b b2 : Nat) : Bool :=
  if b == 0xE0 then 0xA0 ≤ b2 && b2 ≤ 0xBF
  else if b == 0xED then 0x80 ≤ b2 && b2 ≤ 0x9F
  else isUtf8Cont b2

/-- Admissible second byte of a four-byte sequence. -/
def utf8Lead4Ok (b b2 : Nat) : Bool :=
  if b == 0xF0 then 0x90 ≤ b2 && b2 ≤ 0xBF
  else if b == 0xF4 then 0x80 ≤ b2 && b2 ≤ 0x8F
  else isUtf8Cont b2

/-- Worker for `utf8Decode`, structurally recursive on a fuel bounded below
by the number of remaining bytes (every step consumes at least one byte). -/
def utf8DecodeFuel : Nat → List Nat → List Char
  | 0, _ => []
  | _ + 1, [] => []
  | fuel + 1, b :: rest =>
    if b < 0x80 then Char.ofNat b :: utf8DecodeFuel fuel rest
    else if 0xC2 ≤ b && b ≤ 0xDF then
      match rest with
      | b2 :: rest2 =>
        if isUtf8Cont b2 then
          Char.ofNat ((b - 0xC0) * 64 + (b2 - 0x80)) :: utf8DecodeFuel fuel rest2
        else Char.ofNat 0xFFFD :: utf8DecodeFuel fuel rest
      | [] => [Char.ofNat 0xFFFD]
    else if 0xE0 ≤ b && b ≤ 0xEF then
      match rest with
      | b2 :: b3 :: rest3 =>
        if utf8Lead3Ok b b2 && isUtf8Cont b3 then
          Char.ofNat ((b - 0xE0) * 4096 + (b2 - 0x80) * 64 + (b3 - 0x80)) ::
            utf8DecodeFuel fuel rest3
        else Char.ofNat 0xFFFD :: utf8DecodeFuel fuel rest
      | _ => Char.ofNat 0xFFFD :: utf8DecodeFuel fuel rest
    else if 0xF0 ≤ b && b ≤ 0xF4 then
      match rest with
      | b2 :: b3 :: b4 :: rest4 =>
        if utf8Lead4Ok b b2 && isUtf8Cont b3 && isUtf8Cont b4 then
          Char.ofNat
              ((b - 0xF0) * 262144 + (b2 - 0x80) * 4096 + (b3 - 0x80) * 64 +
                (b4 - 0x80)) ::
            utf8DecodeFuel fuel rest4
        else Char.ofNat 0xFFFD :: utf8DecodeFuel fuel rest
      | _ => Char.ofNat 0xFFFD :: utf8DecodeFuel fuel rest
    else Char.ofNat 0xFFFD :: utf8DecodeFuel fuel rest

/-- Node `buffer.toString('utf8')`: UTF-8 decoding with U+FFFD substituted
for invalid input. (On an invalid sequence this model consumes the lead
byte and continues; the exact number of bytes Node groups into one
replacement character differs in some malformed cases, which no claim
touches.) -/
def utf8Decode (l : List Nat) : List Char := utf8DecodeFuel l.length l

deriving instance DecidableEq for Except

/-- Extraction metadata as built by pdfProcessor.js. `processingTime`, a
wall-clock measurement, is not modelled; `confidence` is an exact rational. -/
structure Metadata where
  totalPages : Nat
  wordCount : Nat
  extractionMethod : String
  confidence : ℚ
deriving DecidableEq

/-- An extraction result `{ text, metadata }`. -/
structure ExtractResult where
  text : String
  metadata : Metadata
deriving DecidableEq

/-- A thrown JavaScript value: either a plain `Error` (only its `message` is
observed by the code) or one of the structured `{code, message, status}`
objects. -/
inductive JsError
  | plain (message : String)
  | typed (code : String) (message : String) (status : Nat)
deriving DecidableEq

/-- The `message` property read by the catch blocks. -/
def JsError.message : JsError → String
  | .plain m => m
  | .typed _ m _ => m

/-- Result object of `pdfParse`. -/
structure PdfParseOut where
  text : String
  numpages : Nat
deriving DecidableEq

/-- Output of `tesseractWorker.recognize(...).data`: recognized text and the
engine's confidence on its native 0–100 scale. -/
structure OcrData where
  text : String
  confidence : ℚ
deriving DecidableEq

/-- Recognized extraction options (absent fields of the JS options object
are falsy, hence the `false` defaults; `maxPages` only parametrizes the
external `pdfParse` call, whose outcome the environment abstracts). -/
structure Options where
  enableOCR : Bool := false
  skipSignatureCheck : Bool := false
  isPngAsPdf : Bool := false
  directImageOcr : Bool := false
deriving DecidableEq

/-- Ambient state and external-call outcomes for one run of pdfProcessor.js:
`tesseract` is whether the OCR dependencies loaded at require time;
`pdfParseOut` the outcome of `pdfParse` on the buffer at hand;
`recognizeOut` the outcome of `tesseractWorker.recognize` on the image
produced from that buffer (`sharp` preprocessing only changes that image, so
it is absorbed into this outcome); `rand` the stream of
`Math.random() > 0.5` draws consumed by `cleanText`. -/
structure PdfEnv where
  tesseract : Bool
  pdfParseOut : Except String PdfParseOut
  recognizeOut : Except String OcrData
  rand : Nat → Bool

/-- JS `arr.filter(Boolean).length` over the tokens of `split(/\s+/)`. -/
def wordCountFiltered (s : String) : Nat :=
  ((jsSplitWs s).filter (fun t => t ≠ "")).length

/-- `extractTextWithOCR` from pdfProcessor.js. The temporary directory and
image file exist only to hand the buffer to the engine; the engine call is
`env.recognizeOut`. In `isPngAsPdf`/`directImageOcr` mode a recognition
failure is caught and rethrown as the typed `OCR_FAILED`; otherwise the
placeholder text is returned with the fixed confidence 0.7. -/
def extractTextWithOCR (env : PdfEnv) (buffer : List Nat) (opts : Options) :
    Except JsError ExtractResult :=
  if !env.tesseract then .error (.plain "OCR dependencies not available")
  else
    let body : Except String ExtractResult :=
      if opts.isPngAsPdf || opts.directImageOcr then
        match env.recognizeOut with
        | .ok d =>
          let text := cleanText env.rand d.text
          .ok { text := text,
                metadata := { totalPages := 1,
                              wordCount := wordCountFiltered text,
                              extractionMethod := "ocr",
                              confidence := d.confidence / 100 } }
        | .error e => .error e
      else
        let text := "OCR extraction not fully implemented for PDF documents"
        .ok { text := text,
              metadata := { totalPages := 1,
                            wordCount := wordCountFiltered text,
                            extractionMethod := "ocr",
                            confidence := 0.7 } }
    match body with
    | .ok r => .ok r
    | .error _ => .error (.typed "OCR_FAILED" "Failed to extract text using OCR" 500)

/-- `extractTextFromPDF` from pdfProcessor.js: buffer-length and signature
validation, `pdfParse` with the empty-result substitution under
`skipSignatureCheck`, the ten-word OCR escalation, and the catch block that
falls back to OCR (except for signature failures) before wrapping the error
as `PDF_EXTRACTION_FAILED`. `result.text || ''` is the identity on the
string field and is dropped. -/
def extractTextFromPDF (env : PdfEnv) (buffer : List Nat) (opts : Options) :
    Except JsError ExtractResult :=
  let body : Except JsError ExtractResult :=
    if buffer.length < 4 then .error (.plain "Invalid PDF buffer")
    else if !opts.skipSignatureCheck &&
        bytesToAscii (buffer.take 4) != "%PDF" then
      .error (.plain "File is not a valid PDF")
    else
      let parsed : Except String PdfParseOut :=
        match env.pdfParseOut with
        | .ok r => .ok r
        | .error e =>
          if opts.skipSignatureCheck then .ok { text := "", numpages := 1 }
          else .error e
      match parsed with
      | .error e => .error (.plain e)
      | .ok result =>
        let extractedText := result.text
        let wordCount := (jsSplitWs (jsTrim extractedText)).length
        if wordCount < 10 ∧ opts.enableOCR ∧ env.tesseract then
          extractTextWithOCR env buffer opts
        else
          let cleanedText := cleanText env.rand extractedText
          .ok { text := cleanedText,
                metadata := { totalPages := result.numpages,
                              wordCount := (jsSplitWs cleanedText).length,
                              extractionMethod := "text",
                              confidence := 0.95 } }
  match body with
  | .ok r => .ok r
  | .error err =>
    if opts.enableOCR ∧ env.tesseract ∧
        err.message ≠ "File is not a valid PDF" then
      match extractTextWithOCR env buffer opts with
      | .ok r => .ok r
      | .error _ =>
        .error (.typed "PDF_EXTRACTION_FAILED"
          ("Failed to extract text from PDF: " ++ err.message) 500)
    else
      .error (.typed "PDF_EXTRACTION_FAILED"
        ("Failed to extract text from PDF: " ++ err.message) 500)

/-- `extractTextFromDOCX` from pdfProcessor.js; `mammothOut` is the outcome
of `mammoth.extractRawText` (its `value` field; `|| ''` is the identity on
strings and is dropped). -/
def extractTextFromDOCX (rand : Nat → Bool) (mammothOut : Except String String)
    (buffer : List Nat) : Except JsError ExtractResult :=
  match mammothOut with
  | .ok value =>
    let cleanedText := cleanText rand value
    .ok { text := cleanedText,
          metadata := { totalPages := 1,
                        wordCount := (jsSplitWs cleanedText).length,
                        extractionMethod := "docx",
                        confidence := 0.98 } }
  | .error e =>
    .error (.typed "DOCX_EXTRACTION_FAILED"
      ("Failed to extract text from DOCX: " ++ e) 500)

/-- `extractTextFromTXT` from pdfProcessor.js: decode the buffer as UTF-8,
clean, return. Decoding and cleaning are total, so the catch branch
producing `TXT_EXTRACTION_FAILED` is unreachable; the result type still
admits it. -/
def extractTextFromTXT (rand : Nat → Bool) (buffer : List Nat) :
    Except JsError ExtractResult :=
  let text := String.mk (utf8Decode buffer)
  let cleanedText := cleanText rand text
  .ok { text := cleanedText,
        metadata := { totalPages := 1,
                      wordCount := (jsSplitWs cleanedText).length,
                      extractionMethod := "txt",
                      confidence := 1 } }

example :
    extractTextFromTXT (fun _ => false) [] =
      .ok { text := "",
            metadata := { totalPages := 1, wordCount := 1,
                          extractionMethod := "txt", confidence := 1 } } := by
  decide

/-! ## Helper lemmas -/

/-- A successful `extractTextWithOCR` always reports method `"ocr"` and the
filtered word count of its (already cleaned) text. -/
theorem extractTextWithOCR_ok_metadata (env : PdfEnv) (buffer : List Nat)
    (opts : Options) (res : ExtractResult)
    (h : extractTextWithOCR env buffer opts = .ok res) :
    res.metadata.extractionMethod = "ocr" ∧
    res.metadata.wordCount = wordCountFiltered res.text := by
  unfold extractTextWithOCR at h
  by_cases ht : env.tesseract
  · simp only [ht, Bool.not_true, Bool.false_eq_true, if_false] at h
    by_cases hm : (opts.isPngAsPdf || opts.directImageOcr) = true
    · rw [if_pos hm] at h
      cases hrec : env.recognizeOut with
      | ok d =>
        rw [hrec] at h
        simp only [Except.ok.injEq] at h
        subst h
        exact ⟨rfl, rfl⟩
      | error e => rw [hrec] at h; simp at h
    · rw [if_neg hm] at h
      simp only [Except.ok.injEq] at h
      subst h
      exact ⟨rfl, rfl⟩
  · simp [ht] at h

/-! ## Claim theorems -/

/-- C3: for every byte buffer whose first four bytes are the ASCII codes of
`%PDF`, the byte-signature classifier returns `application/pdf`, and the
effective MIME resolution returns `application/pdf` whatever the filename
hint and transport-reported content type are. -/
theorem c3_pdf_signature_wins (rest : List Nat)
    (filename headerContentType : Option String) :
    detectMimeTypeFromContent (0x25 :: 0x50 :: 0x44 :: 0x46 :: rest) =
      some "application/pdf" ∧
    detectMimeType (0x25 :: 0x50 :: 0x44 :: 0x46 :: rest) filename
      headerContentType = "application/pdf" := by
  have hc : detectMimeTypeFromContent (0x25 :: 0x50 :: 0x44 :: 0x46 :: rest) =
      some "application/pdf" := by
    have h4 : 4 ≤ (0x25 :: 0x50 :: 0x44 :: 0x46 :: rest).length := by
      simp only [List.length_cons]
      omega
    have hascii :
        bytesToAscii ((0x25 :: 0x50 :: 0x44 :: 0x46 :: rest).take 4) = "%PDF" := by
      have htake : (0x25 :: 0x50 :: 0x44 :: 0x46 :: rest).take 4 =
          [0x25, 0x50, 0x44, 0x46] := rfl
      rw [htake]
      decide
    unfold detectMimeTypeFromContent
    rw [if_neg (by simp), if_pos ⟨h4, hascii⟩]
  refine ⟨hc, ?_⟩
  unfold detectMimeType
  rw [hc]
  rfl

/-- C5 (code bug witness): the normalizer is not deterministic. On the input
`"man"`, a run whose `Math.random()` draw exceeds 0.5 yields `"rnan"` while
a run whose draw does not yields `"man"`, so two runs of `cleanText` on the
same input differ. -/
theorem c5_cleanText_nondeterministic :
    cleanText (fun _ => true) "man" = "rnan" ∧
    cleanText (fun _ => false) "man" = "man" ∧
    cleanText (fun _ => true) "man" ≠ cleanText (fun _ => false) "man" := by
  refine ⟨by decide, by decide, by decide⟩

/-- C8 (counterexample): on the empty buffer the TXT strategy does not fail
at all: it returns a success result, contradicting the claim that every
strategy fails fast with a typed error on an empty buffer. -/
theorem c8_counterexample_txt_succeeds :
    (extractTextFromTXT (fun _ => false) []).isOk = true := by decide

/-- C10: the normalizer maps every falsy input (the empty string, and
`null`/`undefined` modelled as `none`) to the empty string, totally. -/
theorem c10_falsy_input_yields_empty (r : Nat → Bool) :
    cleanText r "" = "" ∧ cleanTextJs r none = "" ∧
    cleanTextJs r (some "") = "" := by
  refine ⟨rfl, rfl, rfl⟩

/-- C4 (counterexample): on the empty buffer the TXT strategy succeeds with
empty normalized text but reports `wordCount = 1`, not `0`, because
`''.split(/\s+/)` is `['']`. -/
theorem c4_counterexample_empty_text_wordcount_one :
    extractTextFromTXT (fun _ => false) [] =
      .ok { text := "",
            metadata := { totalPages := 1, wordCount := 1,
                          extractionMethod := "txt", confidence := 1 } } ∧
    (1 : Nat) ≠ 0 := by
  exact ⟨by decide, by decide⟩

/-- C1: if native PDF extraction succeeds (length and signature checks pass
and `pdfParse` returns) but yields fewer than 10 words, and OCR is enabled
and the engine dependency is loaded, then `extractTextFromPDF` returns the
OCR strategy's result, whose `metadata.extractionMethod` is `"ocr"`. -/
theorem c1_sparse_native_text_escalates_to_ocr
    (env : PdfEnv) (buffer : List Nat) (opts : Options) (r : PdfParseOut)
    (res : ExtractResult)
    (hlen : 4 ≤ buffer.length)
    (hsig : opts.skipSignatureCheck = true ∨
      bytesToAscii (buffer.take 4) = "%PDF")
    (hparse : env.pdfParseOut = .ok r)
    (hsparse : (jsSplitWs (jsTrim r.text)).length < 10)
    (hocr : opts.enableOCR = true)
    (htess : env.tesseract = true)
    (hres : extractTextWithOCR env buffer opts = .ok res) :
    extractTextFromPDF env buffer opts = .ok res ∧
    res.metadata.extractionMethod = "ocr" := by
  have hmeth := (extractTextWithOCR_ok_metadata env buffer opts res hres).1
  refine ⟨?_, hmeth⟩
  have h1 : ¬ buffer.length < 4 := by omega
  have h2 : ¬ ((!opts.skipSignatureCheck &&
      (bytesToAscii (buffer.take 4) != "%PDF")) = true) := by
    rcases hsig with h | h <;> simp [h]
  have hcond : (jsSplitWs (jsTrim r.text)).length < 10 ∧
      opts.enableOCR = true ∧ env.tesseract = true := ⟨hsparse, hocr, htess⟩
  unfold extractTextFromPDF
  rw [if_neg h1, if_neg h2, hparse]
  simp only [hres]
  rw [if_pos hcond]

/-- Concrete `%PDF` buffer for witnesses. -/
def bufPdfW : List Nat := [0x25, 0x50, 0x44, 0x46]

/-- Witness environment: OCR dependencies loaded, native parse succeeds with
empty text, recognition unavailable (irrelevant: no image mode is set). -/
def envW1 : PdfEnv :=
  { tesseract := true,
    pdfParseOut := .ok { text := "", numpages := 1 },
    recognizeOut := .error "no image",
    rand := fun _ => false }

/-- The stub result the OCR strategy returns outside single-image mode. -/
def ocrStubResult : ExtractResult :=
  { text := "OCR extraction not fully implemented for PDF documents",
    metadata := { totalPages := 1, wordCount := 8,
                  extractionMethod := "ocr", confidence := 0.7 } }

/-- Witness for C1 at a concrete input. -/
theorem c1_witness :
    extractTextFromPDF envW1 bufPdfW { enableOCR := true } = .ok ocrStubResult ∧
    ocrStubResult.metadata.extractionMethod = "ocr" :=
  c1_sparse_native_text_escalates_to_ocr envW1 bufPdfW { enableOCR := true }
    { text := "", numpages := 1 } ocrStubResult (by decide)
    (Or.inr (by decide)) rfl (by decide) rfl rfl rfl

/-- C2: if native PDF extraction succeeds but yields fewer than 10 words and
OCR is disabled, `extractTextFromPDF` returns the sparse text (normalized,
as all returned text is) with `extractionMethod = "text"`, raising no
error. -/
theorem c2_sparse_native_text_ocr_disabled
    (env : PdfEnv) (buffer : List Nat) (opts : Options) (r : PdfParseOut)
    (hlen : 4 ≤ buffer.length)
    (hsig : opts.skipSignatureCheck = true ∨
      bytesToAscii (buffer.take 4) = "%PDF")
    (hparse : env.pdfParseOut = .ok r)
    (hsparse : (jsSplitWs (jsTrim r.text)).length < 10)
    (hocr : opts.enableOCR = false) :
    extractTextFromPDF env buffer opts =
      .ok { text := cleanText env.rand r.text,
            metadata := { totalPages := r.numpages,
                          wordCount :=
                            (jsSplitWs (cleanText env.rand r.text)).length,
                          extractionMethod := "text",
                          confidence := 0.95 } } := by
  have h1 : ¬ buffer.length < 4 := by omega
  have h2 : ¬ ((!opts.skipSignatureCheck &&
      (bytesToAscii (buffer.take 4) != "%PDF")) = true) := by
    rcases hsig with h | h <;> simp [h]
  have hcond : ¬ ((jsSplitWs (jsTrim r.text)).length < 10 ∧
      opts.enableOCR = true ∧ env.tesseract = true) := by
    simp [hocr]
  unfold extractTextFromPDF
  rw [if_neg h1, if_neg h2, hparse]
  simp only [if_neg hcond]

/-- Witness environment for C2/C8: OCR dependencies absent, native parse
succeeds with two-word text. -/
def envW2 : PdfEnv :=
  { tesseract := false,
    pdfParseOut := .ok { text := "hi", numpages := 2 },
    recognizeOut := .error "x",
    rand := fun _ => false }

/-- Witness for C2 at a concrete input. -/
theorem c2_witness :
    extractTextFromPDF envW2 bufPdfW {} =
      .ok { text := "hi",
            metadata := { totalPages := 2, wordCount := 1,
                          extractionMethod := "text", confidence := 0.95 } } := by
  rw [c2_sparse_native_text_ocr_disabled envW2 bufPdfW {}
    { text := "hi", numpages := 2 } (by decide) (Or.inr (by decide)) rfl
    (by decide) rfl]
  rfl

/-- The OCR strategy never reads `pdfParseOut`, so updating that field of
the environment does not change it. -/
theorem extractTextWithOCR_update_parse (env : PdfEnv)
    (p : Except String PdfParseOut) (buffer : List Nat) (opts : Options) :
    extractTextWithOCR { env with pdfParseOut := p } buffer opts =
      extractTextWithOCR env buffer opts := rfl

/-- C9: under `skipSignatureCheck`, a failing `pdfParse` is not propagated:
the run behaves exactly as if the parser had returned the empty one-page
result. Without OCR available or enabled that gives a success with
`extractionMethod = "text"` and empty text; with OCR enabled and available
the run escalates to the OCR strategy and returns its successful result.
In no case does the parse error's `PDF_EXTRACTION_FAILED` surface. -/
theorem c9_skip_signature_swallows_parse_error
    (env : PdfEnv) (buffer : List Nat) (opts : Options) (e : String)
    (hskip : opts.skipSignatureCheck = true)
    (hparse : env.pdfParseOut = .error e)
    (hlen : 4 ≤ buffer.length) :
    extractTextFromPDF env buffer opts =
      extractTextFromPDF
        { env with pdfParseOut := .ok { text := "", numpages := 1 } }
        buffer opts ∧
    (opts.enableOCR = false ∨ env.tesseract = false →
      extractTextFromPDF env buffer opts =
        .ok { text := "",
              metadata := { totalPages := 1, wordCount := 1,
                            extractionMethod := "text",
                            confidence := 0.95 } }) ∧
    (opts.enableOCR = true → env.tesseract = true →
      ∀ res, extractTextWithOCR env buffer opts = .ok res →
        extractTextFromPDF env buffer opts = .ok res) := by
  have h1 : ¬ buffer.length < 4 := by omega
  have h2 : ¬ ((!opts.skipSignatureCheck &&
      (bytesToAscii (buffer.take 4) != "%PDF")) = true) := by
    simp [hskip]
  have hbody : extractTextFromPDF env buffer opts =
      extractTextFromPDF
        { env with pdfParseOut := .ok { text := "", numpages := 1 } }
        buffer opts := by
    unfold extractTextFromPDF
    rw [hparse]
    simp only [if_neg h1, if_neg h2, hskip, if_true,
      extractTextWithOCR_update_parse]
  refine ⟨hbody, ?_, ?_⟩
  · intro hno
    rw [hbody]
    have hcond : ¬ ((jsSplitWs (jsTrim "")).length < 10 ∧
        opts.enableOCR = true ∧ env.tesseract = true) := by
      rcases hno with h | h <;> simp [h]
    unfold extractTextFromPDF
    simp only [if_neg h1, if_neg h2, extractTextWithOCR_update_parse,
      if_neg hcond]
    rfl
  · intro hocr htess res hres
    rw [hbody]
    have hcond : ((jsSplitWs (jsTrim "")).length < 10 ∧
        opts.enableOCR = true ∧ env.tesseract = true) :=
      ⟨by decide, hocr, htess⟩
    unfold extractTextFromPDF
    simp only [if_neg h1, if_neg h2, extractTextWithOCR_update_parse,
      if_pos hcond, hres]

/-- Witness environment for C9: parse fails, OCR dependencies absent. -/
def envW3 : PdfEnv :=
  { tesseract := false,
    pdfParseOut := .error "bad xref",
    recognizeOut := .error "x",
    rand := fun _ => false }

/-- Witness for C9 at a concrete input. -/
theorem c9_witness :
    extractTextFromPDF envW3 [0, 0, 0, 0] { skipSignatureCheck := true } =
      .ok { text := "",
            metadata := { totalPages := 1, wordCount := 1,
                          extractionMethod := "text", confidence := 0.95 } } :=
  (c9_skip_signature_swallows_parse_error envW3 [0, 0, 0, 0]
    { skipSignatureCheck := true } "bad xref" rfl rfl (by decide)).2.1
    (Or.inr rfl)

/-- C8 (amended): on the empty buffer the PDF strategy with OCR disabled
fails fast with the typed `PDF_EXTRACTION_FAILED`, and the DOCX strategy
fails with the typed `DOCX_EXTRACTION_FAILED` whenever its underlying
reader throws; the TXT strategy, however, does not fail: it returns a
success result with empty text (and `wordCount = 1`). -/
theorem c8_empty_buffer_amended
    (env : PdfEnv) (rand : Nat → Bool) (opts : Options)
    (hocr : opts.enableOCR = false) :
    extractTextFromPDF env [] opts =
      .error (.typed "PDF_EXTRACTION_FAILED"
        "Failed to extract text from PDF: Invalid PDF buffer" 500) ∧
    (∀ msg, extractTextFromDOCX rand (.error msg) [] =
      .error (.typed "DOCX_EXTRACTION_FAILED"
        ("Failed to extract text from DOCX: " ++ msg) 500)) ∧
    extractTextFromTXT rand [] =
      .ok { text := "",
            metadata := { totalPages := 1, wordCount := 1,
                          extractionMethod := "txt", confidence := 1 } } := by
  refine ⟨?_, fun msg => rfl, rfl⟩
  unfold extractTextFromPDF
  rw [if_pos (by simp)]
  have hno : ¬ (opts.enableOCR = true ∧ env.tesseract = true ∧
      (JsError.plain "Invalid PDF buffer").message ≠ "File is not a valid PDF") := by
    simp [hocr]
  simp only [if_neg hno]
  rfl

/-- Witness for C8 (amended) at a concrete input. -/
theorem c8_witness :
    extractTextFromPDF envW2 [] {} =
      .error (.typed "PDF_EXTRACTION_FAILED"
        "Failed to extract text from PDF: Invalid PDF buffer" 500) :=
  (c8_empty_buffer_amended envW2 (fun _ => false) {} rfl).1

/-- C6: the effective MIME type resolution of the code equals the spec's
fixed priority — content sniffing, then extension inference, then the
transport-reported type, then the `application/octet-stream` default, each
later source used only when the earlier ones yield nothing. (The code also
discards a transport-reported `application/octet-stream`; that changes
nothing, since the default is the same value.) -/
theorem c6_mime_resolution_priority (buffer : List Nat)
    (filename headerContentType : Option String) :
    detectMimeType buffer filename headerContentType =
      specEffectiveMime buffer filename headerContentType := by
  cases hc : detectMimeTypeFromContent buffer with
  | some m => simp [detectMimeType, specEffectiveMime, hc]
  | none =>
    cases filename with
    | some f =>
      by_cases hf : f = ""
      · subst hf
        cases headerContentType with
        | none => simp [detectMimeType, specEffectiveMime, hc,
            detectMimeTypeFromExtension]
        | some h =>
          by_cases h1 : h = ""
          · simp [detectMimeType, specEffectiveMime, hc, h1,
              detectMimeTypeFromExtension]
          · by_cases h2 : h = "application/octet-stream"
            · simp [detectMimeType, specEffectiveMime, hc, h1, h2,
                detectMimeTypeFromExtension]
            · simp [detectMimeType, specEffectiveMime, hc, h1, h2,
                detectMimeTypeFromExtension]
      · cases he : detectMimeTypeFromExtension f with
        | some m => simp [detectMimeType, specEffectiveMime, hc, hf, he]
        | none =>
          cases headerContentType with
          | none => simp [detectMimeType, specEffectiveMime, hc, hf, he]
          | some h =>
            by_cases h1 : h = ""
            · simp [detectMimeType, specEffectiveMime, hc, hf, he, h1]
            · by_cases h2 : h = "application/octet-stream"
              · simp [detectMimeType, specEffectiveMime, hc, hf, he, h1, h2]
              · simp [detectMimeType, specEffectiveMime, hc, hf, he, h1, h2]
    | none =>
      cases headerContentType with
      | none => simp [detectMimeType, specEffectiveMime, hc]
      | some h =>
        by_cases h1 : h = ""
        · simp [detectMimeType, specEffectiveMime, hc, h1]
        · by_cases h2 : h = "application/octet-stream"
          · simp [detectMimeType, specEffectiveMime, hc, h1, h2]
          · simp [detectMimeType, specEffectiveMime, hc, h1, h2]

/-- If method 2 fell through although its guard held, its request did not
resolve. -/
theorem tryMethod2_none_isOk (e : DownloadEnv) (h : tryMethod2 e = none)
    (hg : (truthy e.publicId && truthy e.cloudName) = true) :
    e.m2.isOk = false := by
  unfold tryMethod2 at h
  rw [if_pos hg] at h
  cases hm : e.m2 with
  | ok r => rw [hm] at h; simp at h
  | error msg => simp [hm, Except.isOk, Except.toBool]

/-- If method 3 fell through although its guard held, its request did not
resolve. -/
theorem tryMethod3_none_isOk (e : DownloadEnv) (h : tryMethod3 e = none)
    (hg : (truthy e.publicId && truthy e.cloudName) = true) :
    e.m3.isOk = false := by
  unfold tryMethod3 at h
  rw [if_pos hg] at h
  cases hm : e.m3 with
  | ok r => rw [hm] at h; simp at h
  | error msg => simp [hm, Except.isOk, Except.toBool]

/-- If method 4 fell through although its guard held, its request did not
resolve. -/
theorem tryMethod4_none_isOk (e : DownloadEnv) (h : tryMethod4 e = none)
    (hg : (truthy e.publicId && truthy e.cloudName && truthy e.apiKey &&
      truthy e.apiSecret) = true) :
    e.m4.isOk = false := by
  unfold tryMethod4 at h
  rw [if_pos hg] at h
  cases hm : e.m4 with
  | ok r => rw [hm] at h; simp at h
  | error msg => simp [hm, Except.isOk, Except.toBool]

/-- A `method234` error is exactly the terminal `DOWNLOAD_FAILED`, and it
occurs only when every applicable later method failed. -/
theorem method234_error_exhausted (e : DownloadEnv) (err : DownloadError)
    (h : method234 e = .error err) :
    err = { code := "DOWNLOAD_FAILED",
            message := "Failed to download file: All download methods failed",
            status := 500, originalUrl := e.url } ∧
    ((truthy e.publicId && truthy e.cloudName) = true →
      e.m2.isOk = false ∧ e.m3.isOk = false) ∧
    ((truthy e.publicId && truthy e.cloudName && truthy e.apiKey &&
      truthy e.apiSecret) = true → e.m4.isOk = false) := by
  unfold method234 at h
  cases h2 : tryMethod2 e with
  | some r => rw [h2] at h; simp at h
  | none =>
    rw [h2] at h
    cases h3 : tryMethod3 e with
    | some r => rw [h3] at h; simp at h
    | none =>
      rw [h3] at h
      cases h4 : tryMethod4 e with
      | some r => rw [h4] at h; simp at h
      | none =>
        rw [h4] at h
        simp only [Except.error.injEq] at h
        refine ⟨h.symm, fun hg => ⟨tryMethod2_none_isOk e h2 hg,
          tryMethod3_none_isOk e h3 hg⟩, fun hg => tryMethod4_none_isOk e h4 hg⟩

/-- C7: when the direct GET resolves with a 4xx status, `downloadFile` does
not raise there: it proceeds to methods 2–4, and a `DOWNLOAD_FAILED` error
is raised only once every applicable strategy has failed. -/
theorem c7_direct_get_4xx_falls_through
    (e : DownloadEnv) (h : HttpResp)
    (hm1 : e.m1 = .ok h) (h4a : 400 ≤ h.status) (h4b : h.status < 500) :
    downloadFile e = method234 e ∧
    (∀ err, downloadFile e = .error err →
      err.code = "DOWNLOAD_FAILED" ∧
      ((truthy e.publicId && truthy e.cloudName) = true →
        e.m2.isOk = false ∧ e.m3.isOk = false) ∧
      ((truthy e.publicId && truthy e.cloudName && truthy e.apiKey &&
        truthy e.apiSecret) = true → e.m4.isOk = false)) := by
  have hne : (h.status == 200) = false := by
    simp only [beq_eq_false_iff_ne, ne_eq]
    omega
  have hdf : downloadFile e = method234 e := by
    unfold downloadFile
    rw [hm1]
    simp [hne]
  refine ⟨hdf, fun err herr => ?_⟩
  rw [hdf] at herr
  obtain ⟨heq, hg23, hg4⟩ := method234_error_exhausted e err herr
  exact ⟨by rw [heq], hg23, hg4⟩

/-- Witness download environment: direct GET resolves with 404, no
Cloudinary identifiers extractable, later requests throw. -/
def envDl : DownloadEnv :=
  { url := "https://example.com/files/doc.pdf",
    filename := some "doc.pdf", publicId := none, urlCloudName := none,
    envCloudName := none, apiKey := none, apiSecret := none,
    m1 := .ok { status := 404, bytes := [], contentType := none },
    m2 := .error "request failed", m3 := .error "request failed",
    m4 := .error "request failed" }

/-- Witness for C7 at a concrete input. -/
theorem c7_witness : downloadFile envDl = method234 envDl :=
  (c7_direct_get_4xx_falls_through envDl
    { status := 404, bytes := [], contentType := none } rfl (by decide)
    (by decide)).1

/-- The head of a `dropWhile isJsWs` result is not whitespace. -/
theorem head_dropWhile_ws (l : List Char) (c : Char)
    (h : (l.dropWhile isJsWs).head? = some c) : isJsWs c = false := by
  induction l with
  | nil => simp [List.dropWhile] at h
  | cons d rest ih =>
    rw [List.dropWhile_cons] at h
    by_cases hd : isJsWs d = true
    · rw [if_pos hd] at h
      exact ih h
    · rw [if_neg hd] at h
      simp only [List.head?_cons, Option.some.injEq] at h
      subst h
      exact Bool.eq_false_iff.mpr hd

/-- The first character of a trimmed string is not whitespace. -/
theorem head_trimChars_ws (l : List Char) (c : Char)
    (h : (trimChars l).head? = some c) : isJsWs c = false := by
  have hpre : trimChars l <+: l.dropWhile isJsWs := by
    unfold trimChars dropTrailingWs dropLeadingWs
    have hsuf : (l.dropWhile isJsWs).reverse.dropWhile isJsWs <:+
        (l.dropWhile isJsWs).reverse := List.dropWhile_suffix isJsWs
    have hp := List.reverse_prefix.mpr hsuf
    simpa using hp
  obtain ⟨u, hu⟩ := hpre
  apply head_dropWhile_ws l c
  rw [← hu]
  cases hm : trimChars l with
  | nil => rw [hm] at h; simp at h
  | cons x xs =>
    rw [hm] at h
    simp only [List.head?_cons, Option.some.injEq] at h
    subst h
    rfl

/-- The last character of a trimmed string is not whitespace. -/
theorem getLast_trimChars_ws (l : List Char) (c : Char)
    (h : (trimChars l).getLast? = some c) : isJsWs c = false := by
  unfold trimChars dropTrailingWs at h
  rw [List.getLast?_reverse] at h
  exact head_dropWhile_ws _ c h

/-- Lifting `getLast?` along `cons`. -/
theorem getLast?_cons_of_getLast? (c x : Char) (rest : List Char)
    (h : rest.getLast? = some x) : (c :: rest).getLast? = some x := by
  cases rest with
  | nil => simp at h
  | cons d r2 => rw [List.getLast?_cons_cons]; exact h

/-- Tokens produced by `splitWsCore` are nonempty provided the input does
not end in whitespace and either a token is already open or the input does
not start with whitespace. -/
theorem splitWsCore_no_empty (l : List Char) :
    ∀ (st : Option (List Char)),
    (∀ c, l.getLast? = some c → isJsWs c = false) →
    (match st with
     | some cur => cur ≠ [] ∨ ∃ c, l.head? = some c ∧ isJsWs c = false
     | none => l ≠ []) →
    ∀ t ∈ splitWsCore l st, t ≠ [] := by
  induction l with
  | nil =>
    intro st hlast hst t ht
    cases st with
    | some cur =>
      simp only [splitWsCore, List.mem_singleton] at ht
      subst ht
      rcases hst with hcur | ⟨c, hc, _⟩
      · simpa [List.reverse_eq_nil_iff] using hcur
      · simp at hc
    | none => exact absurd rfl hst
  | cons d rest ih =>
    intro st hlast hst t ht
    have hlast' : ∀ c, rest.getLast? = some c → isJsWs c = false :=
      fun c hc => hlast c (getLast?_cons_of_getLast? d c rest hc)
    have hrestne : isJsWs d = true → rest ≠ [] := by
      intro hd he
      subst he
      have := hlast d (by simp)
      rw [this] at hd
      exact Bool.false_ne_true hd
    cases st with
    | some cur =>
      by_cases hd : isJsWs d = true
      · simp only [splitWsCore, if_pos hd] at ht
        have hcur : cur ≠ [] := by
          rcases hst with h | ⟨c, hc, hcws⟩
          · exact h
          · simp only [List.head?_cons, Option.some.injEq] at hc
            subst hc
            rw [hd] at hcws
            exact absurd hcws (by decide)
        rcases List.mem_cons.mp ht with h | h
        · subst h
          simpa [List.reverse_eq_nil_iff] using hcur
        · exact ih none hlast' (hrestne hd) t h
      · simp only [splitWsCore, if_neg hd] at ht
        exact ih (some (d :: cur)) hlast' (Or.inl (by simp)) t ht
    | none =>
      by_cases hd : isJsWs d = true
      · simp only [splitWsCore, if_pos hd] at ht
        exact ih none hlast' (hrestne hd) t ht
      · simp only [splitWsCore, if_neg hd] at ht
        exact ih (some [d]) hlast' (Or.inl (by simp)) t ht

/-- On a nonempty trimmed string, `split(/\s+/)` produces no empty token. -/
theorem jsSplitWs_trim_no_empty (l : List Char) (hne : trimChars l ≠ []) :
    ∀ t ∈ jsSplitWs (String.mk (trimChars l)), t ≠ "" := by
  intro t ht
  unfold jsSplitWs at ht
  rcases List.mem_map.mp ht with ⟨tl, htl, rfl⟩
  have htlne : tl ≠ [] := by
    apply splitWsCore_no_empty (trimChars l) (some [])
      (fun c hc => getLast_trimChars_ws l c hc) ?_ tl htl
    right
    cases hh : (trimChars l).head? with
    | none =>
      cases hm : trimChars l with
      | nil => exact absurd hm hne
      | cons x xs => rw [hm] at hh; simp at hh
    | some c => exact ⟨c, rfl, head_trimChars_ws l c hh⟩
  intro habs
  apply htlne
  have := congrArg String.data habs
  simpa using this

/-- On a nonempty trimmed string, the length of the `split(/\s+/)` list
equals the filtered word count. -/
theorem splitWs_trim_count_eq_filtered (l : List Char)
    (hne : trimChars l ≠ []) :
    (jsSplitWs (String.mk (trimChars l))).length =
      wordCountFiltered (String.mk (trimChars l)) := by
  unfold wordCountFiltered
  rw [List.filter_eq_self.mpr]
  intro a ha
  simpa using jsSplitWs_trim_no_empty l hne a ha

/-- For every nonempty output of the normalizer, the plain
`split(/\s+/).length` count and the `filter(Boolean)` word count agree
(normalized text is always trimmed). -/
theorem cleanText_count_eq_filtered (rand : Nat → Bool) (raw : String)
    (hne : cleanText rand raw ≠ "") :
    (jsSplitWs (cleanText rand raw)).length =
      wordCountFiltered (cleanText rand raw) := by
  by_cases hraw : raw = ""
  · rw [hraw] at hne
    simp [cleanText] at hne
  · have hform : cleanText rand raw =
        String.mk (trimChars (normalizeEncoding
          (preserveParagraphs (String.mk (fixCommonOCRIssues rand
            (collapseNl (collapseWs raw.data))))).data)) := by
      unfold cleanText
      rw [if_neg hraw]
    rw [hform] at hne ⊢
    apply splitWs_trim_count_eq_filtered
    intro habs
    apply hne
    rw [habs]

/-- Successful `extractTextFromPDF` results come either from the OCR
strategy or from the native-text path, whose record carries method `"text"`
and the split-length word count of its own normalized text. -/
theorem extractTextFromPDF_ok_shape (env : PdfEnv) (buffer : List Nat)
    (opts : Options) (res : ExtractResult)
    (h : extractTextFromPDF env buffer opts = .ok res) :
    extractTextWithOCR env buffer opts = .ok res ∨
    (res.metadata.extractionMethod = "text" ∧
     res.metadata.wordCount = (jsSplitWs res.text).length) := by
  unfold extractTextFromPDF at h
  split at h
  case isTrue =>
    split at h
    next r heq =>
      try simp only [] at h
      split at h
      · simp only [Except.ok.injEq] at h
        subst h
        exact Or.inl heq
      · simp at h
    next e heq =>
      try simp only [] at h
      split at h <;> simp at h
  case isFalse =>
    split at h
    · -- signature failure: the catch refuses OCR for this exact message
      split at h
      next r3 heq =>
        try simp only [] at h
        split at h
        next hP => exact absurd rfl hP.2.2
        next hP => simp at h
      next e3 heq =>
        try simp only [] at h
        split at h
        next hP => exact absurd rfl hP.2.2
        next hP => simp at h
    · -- parse stage
      split at h
      next r heqp =>
        split at h
        next r2 hcond =>
          try simp only [] at h
          split at h
          next r0 hsp =>
            simp only [Except.ok.injEq] at h
            subst h
            split at hsp
            next hc => exact Or.inl hsp
            next hc =>
              simp only [Except.ok.injEq] at hsp
              subst hsp
              exact Or.inr ⟨rfl, rfl⟩
          next err0 hsp =>
            split at h
            next hP =>
              simp only [Except.ok.injEq] at h
              subst h
              exact Or.inl hcond
            next hP => simp at h
        next err2 hcond =>
          try simp only [] at h
          split at h
          next r0 hsp =>
            simp only [Except.ok.injEq] at h
            subst h
            split at hsp
            next hc => exact Or.inl hsp
            next hc =>
              simp only [Except.ok.injEq] at hsp
              subst hsp
              exact Or.inr ⟨rfl, rfl⟩
          next err0 hsp =>
            split at h <;> simp at h
      next e heqp =>
        split at h
        next hskip =>
          split at h
          next r2 hcond =>
            try simp only [] at h
            split at h
            next r0 hsp =>
              simp only [Except.ok.injEq] at h
              subst h
              split at hsp
              next hc => exact Or.inl hsp
              next hc =>
                simp only [Except.ok.injEq] at hsp
                subst hsp
                exact Or.inr ⟨rfl, rfl⟩
            next err0 hsp =>
              split at h
              next hP =>
                simp only [Except.ok.injEq] at h
                subst h
                exact Or.inl hcond
              next hP => simp at h
          next err2 hcond =>
            try simp only [] at h
            split at h
            next r0 hsp =>
              simp only [Except.ok.injEq] at h
              subst h
              split at hsp
              next hc => exact Or.inl hsp
              next hc =>
                simp only [Except.ok.injEq] at hsp
                subst hsp
                exact Or.inr ⟨rfl, rfl⟩
            next err0 hsp =>
              split at h <;> simp at h
        next hskip =>
          split at h
          next r3 heq =>
            try simp only [] at h
            split at h
            next hP =>
              simp only [Except.ok.injEq] at h
              subst h
              exact Or.inl heq
            next hP => simp at h
          next e3 heq =>
            try simp only [] at h
            split at h <;> simp at h

/-- C4 (amended): for every successful extraction the returned
`metadata.wordCount` is computed from the normalized `text` field of the
result, never from the raw text: on the PDF text, DOCX and TXT paths it is
the length of the whitespace-split of the normalized text — which equals
the filtered word count whenever that text is nonempty, but is 1 (not 0)
when it is empty — while the OCR path filters empty tokens and reports 0 on
empty text. -/
theorem c4_wordcount_from_normalized_text
    (env : PdfEnv) (mammothOut : Except String String) (rand : Nat → Bool)
    (buf1 buf2 buf3 : List Nat) (opts : Options) :
    (∀ res, extractTextFromTXT rand buf1 = .ok res →
      res.metadata.wordCount = (jsSplitWs res.text).length) ∧
    (∀ res, extractTextFromDOCX rand mammothOut buf2 = .ok res →
      res.metadata.wordCount = (jsSplitWs res.text).length) ∧
    (∀ res, extractTextWithOCR env buf3 opts = .ok res →
      res.metadata.wordCount = wordCountFiltered res.text) ∧
    (∀ res, extractTextFromPDF env buf3 opts = .ok res →
      (res.metadata.extractionMethod = "text" →
        res.metadata.wordCount = (jsSplitWs res.text).length) ∧
      (res.metadata.extractionMethod = "ocr" →
        res.metadata.wordCount = wordCountFiltered res.text)) ∧
    (∀ raw, cleanText rand raw ≠ "" →
      (jsSplitWs (cleanText rand raw)).length =
        wordCountFiltered (cleanText rand raw)) := by
  refine ⟨?_, ?_, ?_, ?_, fun raw hne => cleanText_count_eq_filtered rand raw hne⟩
  · intro res h
    unfold extractTextFromTXT at h
    simp only [Except.ok.injEq] at h
    subst h
    rfl
  · intro res h
    unfold extractTextFromDOCX at h
    cases hm : mammothOut with
    | ok v =>
      rw [hm] at h
      simp only [Except.ok.injEq] at h
      subst h
      rfl
    | error e => rw [hm] at h; simp at h
  · intro res h
    exact (extractTextWithOCR_ok_metadata env buf3 opts res h).2
  · intro res h
    rcases extractTextFromPDF_ok_shape env buf3 opts res h with hocr | ⟨hm, hw⟩
    · obtain ⟨hmeth, hwc⟩ := extractTextWithOCR_ok_metadata env buf3 opts res hocr
      constructor
      · intro htext
        rw [htext] at hmeth
        exact absurd hmeth (by decide)
      · intro _
        exact hwc
    · constructor
      · intro _
        exact hw
      · intro hocr2
        rw [hocr2] at hm
        exact absurd hm (by decide)

/-- Concrete TXT result for the C4 witness (bytes of `"hi"`). -/
def resHiTxt : ExtractResult :=
  { text := "hi",
    metadata := { totalPages := 1, wordCount := 1,
                  extractionMethod := "txt", confidence := 1 } }

/-- Witness for C4 (amended) at a concrete input. -/
theorem c4_witness :
    extractTextFromTXT (fun _ => false) [104, 105] = .ok resHiTxt ∧
    resHiTxt.metadata.wordCount = (jsSplitWs resHiTxt.text).length :=
  ⟨by decide,
   (c4_wordcount_from_normalized_text envW1 (.error "e") (fun _ => false)
     [104, 105] [] [] {}).1 resHiTxt (by decide)⟩
